import Mathlib

/-!
Shallow embedding of `cover_agent/coverage_processor.py` (class `CoverageProcessor`).

Python strings are modelled as Lean `String`s; the string primitives the source
uses (`str.strip`, `str.startswith`, `str.endswith`, `str.replace`, `str.split`,
`int(...)`, `os.path.basename`) are implemented below by structural recursion on
the character list so that every definition is kernel-executable.

XML trees (`xml.etree.ElementTree`), CSV rows (`csv.DictReader`) and the decoded
JSON document are modelled as structured Lean data: attribute lookup and numeric
attribute conversion happen upstream of all the parsing logic under study, so a
report is a value of a structure type mirroring the elements and attributes the
parser reads.  Coverage ratios are modelled as `ℚ` (Python `float` division on
the small integer counts involved is exact rational division).
-/

/-- Python `s.endswith(t)` : `t` is a suffix of `s` (character-wise). -/
def strEndsWith (s t : String) : Bool := decide (t.data <:+ s.data)

/-- Python `s.startswith(t)` : `t` is a prefix of `s` (character-wise). -/
def strStartsWith (s t : String) : Bool := decide (t.data <+: s.data)

/-- ASCII whitespace, as stripped by Python `str.strip()`. -/
def pyIsSpace (c : Char) : Bool :=
  (c == ' ') || (c == '\t') || (c == '\n') || (c == '\r') || (c == '\x0b') || (c == '\x0c')

/-- Python `s.strip()` : drop leading and trailing whitespace. -/
def pyStrip (s : String) : String :=
  ⟨((s.data.dropWhile pyIsSpace).reverse.dropWhile pyIsSpace).reverse⟩

/-- Replace every (non-overlapping, leftmost-first) occurrence of `old` by `new`;
character-list core of Python `s.replace(old, new)` (for non-empty `old`). -/
def listReplace (s old new : List Char) : List Char :=
  match s with
  | [] => []
  | c :: rest =>
    if h : old ≠ [] ∧ old.isPrefixOf (c :: rest) then
      new ++ listReplace ((c :: rest).drop old.length) old new
    else
      c :: listReplace rest old new
termination_by s.length
decreasing_by
  · have := List.length_pos.mpr h.1
    simp only [List.length_drop, List.length_cons]
    omega
  · simp

/-- Python `s.replace(old, new)` (with non-empty `old`). -/
def pyReplace (s old new : String) : String := ⟨listReplace s.data old.data new.data⟩

/-- Split at every (non-overlapping, leftmost-first) occurrence of `sep`;
character-list core of Python `s.split(sep)` for a non-empty separator. -/
def listSplit (s sep acc : List Char) : List (List Char) :=
  match s with
  | [] => [acc.reverse]
  | c :: rest =>
    if h : sep ≠ [] ∧ sep.isPrefixOf (c :: rest) then
      acc.reverse :: listSplit ((c :: rest).drop sep.length) sep []
    else
      listSplit rest sep (c :: acc)
termination_by s.length
decreasing_by
  · have := List.length_pos.mpr h.1
    simp only [List.length_drop, List.length_cons]
    omega
  · simp

/-- Python `s.split(sep)` (with non-empty `sep`). -/
def pySplit (s sep : String) : List String := (listSplit s.data sep.data []).map String.mk

/-- Value of a digit string, or `none` if empty or a non-digit occurs. -/
def digitsVal : List Char → Option Nat
  | [] => none
  | c :: rest =>
    if c.isDigit then
      match rest with
      | [] => some (c.toNat - '0'.toNat)
      | _ :: _ => (digitsVal rest).map (fun tl => (c.toNat - '0'.toNat) * 10 ^ rest.length + tl)
    else none

/-- Python `int(s)` on a stripped string: optional sign followed by digits;
`none` models a raised `ValueError`. -/
def pyParseInt (s : String) : Option Int :=
  match (pyStrip s).data with
  | '-' :: rest => (digitsVal rest).map (fun n => -(n : Int))
  | '+' :: rest => (digitsVal rest).map (fun n => (n : Int))
  | l => (digitsVal l).map (fun n => (n : Int))

/-- Python `os.path.basename` for POSIX paths: everything after the last `/`. -/
def pyBasename (p : String) : String := (pySplit p "/").getLastD ""

/-- The repeated ratio idiom of the source,
`(len(covered) / total) if total else 0` with `total = len(covered) + len(missed)`. -/
def coverageRatioOf (c m : Nat) : ℚ :=
  if c + m > 0 then (c : ℚ) / ((c : ℚ) + (m : ℚ)) else 0

/-! ## Cobertura reports

A Cobertura XML report is modelled as the list of its `<class>` elements in
document order (`root.findall(".//class")`); each class carries its optional
`filename` attribute and its `<line>` descendants in document order
(`cls.findall(".//line")`), each with the integer values of its `number` and
`hits` attributes. -/

/-- One `<line number=... hits=...>` element of a Cobertura report. -/
structure CoberturaLine where
  number : Int
  hits : Int
deriving DecidableEq, Repr

/-- One `<class filename=...>` element of a Cobertura report; `filename` is
`none` when the attribute is absent. -/
structure CoberturaClass where
  filename : Option String
  lines : List CoberturaLine
deriving DecidableEq, Repr

/-- `parse_coverage_data_for_class`: classify every `line` child as covered
(`hits > 0`) or missed, and compute the per-class ratio. -/
def parse_coverage_data_for_class (cls : CoberturaClass) : List Int × List Int × ℚ :=
  let lines_covered := (cls.lines.filter (fun l => l.hits > 0)).map (fun l => l.number)
  let lines_missed := (cls.lines.filter (fun l => ¬ l.hits > 0)).map (fun l => l.number)
  (lines_covered, lines_missed, coverageRatioOf lines_covered.length lines_missed.length)

/-- The guard `if name_attr and name_attr.endswith(filename)` of single-file
mode: the `filename` attribute is present, truthy (non-empty) and has the
target as a suffix. -/
def classMatches (target : String) (cls : CoberturaClass) : Bool :=
  match cls.filename with
  | none => false
  | some f => (!(f == "")) && strEndsWith f target

/-- The accumulation-and-reconciliation step shared verbatim by both Cobertura
modes: concatenate the per-class covered and missed lists of `cs`, deduplicate
(`set(...)`), and remove every covered line from the missed set. -/
def coberturaAccum (cs : List CoberturaClass) : Finset Int × Finset Int :=
  let all_covered := (cs.map (fun c => (parse_coverage_data_for_class c).1)).flatten
  let all_missed := (cs.map (fun c => (parse_coverage_data_for_class c).2.1)).flatten
  let covered_set := all_covered.toFinset
  let missed_set := all_missed.toFinset \ covered_set
  (covered_set, missed_set)

/-- Single-file mode of `parse_coverage_report_cobertura` (truthy `filename`):
accumulate over every class whose `filename` attribute suffix-matches the
target, reconcile, and compute the ratio.  Python returns the two sets as
lists in unspecified (hash) order; the sets themselves are returned here. -/
def coberturaSingleResult (report : List CoberturaClass) (target : String) :
    Finset Int × Finset Int × ℚ :=
  let s := coberturaAccum (report.filter (classMatches target))
  (s.1, s.2, coverageRatioOf s.1.card s.2.card)

/-- Bulk mode of `parse_coverage_report_cobertura` (`filename=None` or empty):
the dict entry for key `f`.  A key exists exactly for every truthy (non-empty)
`filename` attribute occurring in the report; its value accumulates the
classes with exactly that attribute, reconciled and ratioed as in single-file
mode. -/
def coberturaBulkEntry (report : List CoberturaClass) (f : String) :
    Option (Finset Int × Finset Int × ℚ) :=
  if (!(f == "")) && report.any (fun c => c.filename == some f) then
    let s := coberturaAccum (report.filter (fun c => c.filename == some f))
    some (s.1, s.2, coverageRatioOf s.1.card s.2.card)
  else
    none

/-! ## LCOV reports

`parse_coverage_report_lcov` iterates over the report's text lines with a
single shared file iterator: the outer loop looks for `SF:` lines, and on a
match an inner loop (over the same iterator) classifies `DA:` lines until
`end_of_record`, after which the outer loop resumes on the remaining lines.
The file is modelled as the list of its text lines. -/

/-- The `DA:` classification step of the inner loop:
`line.replace("DA:", "").split(",")` and `int(...)` on fields 0 and 1.
A malformed numeral raises `ValueError` in the source; it is defaulted to `0`
here (no claim involves malformed `DA:` lines). -/
def lcovClassifyDA (line : String) (cov mis : List Int) : List Int × List Int :=
  let parts := pySplit (pyReplace line "DA:" "") ","
  let line_number := (pyParseInt (parts.getD 0 "")).getD 0
  let hits := (pyParseInt (parts.getD 1 "")).getD 0
  if hits > 0 then (cov ++ [line_number], mis) else (cov, mis ++ [line_number])

/-- The inner loop: consume lines, classifying `DA:` lines, until an
`end_of_record` line (or end of file); return the unconsumed remainder of the
file together with the updated accumulators. -/
def lcovReadBlock : List String → List Int → List Int → List String × List Int × List Int
  | [], cov, mis => ([], cov, mis)
  | l :: rest, cov, mis =>
    let line := pyStrip l
    if strStartsWith line "DA:" then
      let acc := lcovClassifyDA line cov mis
      lcovReadBlock rest acc.1 acc.2
    else if strStartsWith line "end_of_record" then
      (rest, cov, mis)
    else
      lcovReadBlock rest cov mis

/-- The outer loop: scan for `SF:` lines whose (stripped) text ends with the
target filename; on a match run the inner loop and resume on its remainder. -/
def lcovOuterScan (fileLines : List String) (filename : String) (cov mis : List Int) :
    List Int × List Int :=
  match fileLines with
  | [] => (cov, mis)
  | l :: rest =>
    let line := pyStrip l
    if strStartsWith line "SF:" && strEndsWith line filename then
      let r := lcovReadBlock rest cov mis
      lcovOuterScan r.1 filename r.2.1 r.2.2
    else
      lcovOuterScan rest filename cov mis
termination_by fileLines.length
decreasing_by
  · have : (lcovReadBlock rest cov mis).1.length ≤ rest.length := by
      clear * -
      induction rest generalizing cov mis with
      | nil => simp [lcovReadBlock]
      | cons x xs ih =>
        simp only [lcovReadBlock]
        split
        · exact le_trans (ih ..) (by simp)
        · split
          · simp
          · exact le_trans (ih ..) (by simp)
    simp only [List.length_cons]
    omega
  · simp

/-- `parse_coverage_report_lcov`: the target filename is the basename of the
source path; the final ratio uses the accumulated list lengths. -/
def parse_coverage_report_lcov (fileLines : List String) (src_file_path : String) :
    List Int × List Int × ℚ :=
  let filename := pyBasename src_file_path
  let r := lcovOuterScan fileLines filename [] []
  (r.1, r.2, coverageRatioOf r.1.length r.2.length)

/-! ## JaCoCo reports

The XML sub-format is modelled as the list of the report's `sourcefile`
elements in document order; each has a `name` attribute and its children in
document order.  A child is either a `line` element (with optional `nr` and
`mi` attributes) or some other element (JaCoCo emits `counter` children):
`ElementTree` element truthiness — used by the `find(...) or find(...)`
fallback — is "has at least one child of any kind".  The CSV sub-format is
modelled as the list of its rows with the columns the parser reads. -/

/-- A child element of a JaCoCo `sourcefile`: a `line` element carrying its
`nr` and `mi` attributes (absent attributes are `none`), or any other element. -/
inductive JacocoChild where
  | line (nr : Option Int) (mi : Option String)
  | other
deriving DecidableEq, Repr

/-- A `sourcefile` element of a JaCoCo XML report. -/
structure JacocoSourcefile where
  name : String
  children : List JacocoChild
deriving DecidableEq, Repr

/-- A row of a JaCoCo CSV report, restricted to the columns the parser reads.
Counts come from `int(...)` on the cells and are modelled as integers. -/
structure JacocoCsvRow where
  PACKAGE : String
  CLASS : String
  LINE_MISSED : Int
  LINE_COVERED : Int
deriving DecidableEq, Repr

/-- A JaCoCo report file; the constructor records the report path's extension
(`get_file_extension`), which selects the sub-format. -/
inductive JacocoReportFile where
  | xml (sourcefiles : List JacocoSourcefile)
  | csv (rows : List JacocoCsvRow)
  | otherExt (ext : String)
deriving Repr

/-- The sourcefile selection
`root.find(".//sourcefile[@name='{cn}.java']") or root.find(".//sourcefile[@name='{cn}.kt']")`:
`find` returns the first match in document order, and Python `or` moves on to
the `.kt` lookup when the `.java` result is `None` or a childless (falsy)
element. -/
def jacocoSelectSourcefile (sfs : List JacocoSourcefile) (class_name : String) :
    Option JacocoSourcefile :=
  match sfs.find? (fun sf => sf.name == class_name ++ ".java") with
  | some sf => if sf.children.isEmpty then sfs.find? (fun sf => sf.name == class_name ++ ".kt") else some sf
  | none => sfs.find? (fun sf => sf.name == class_name ++ ".kt")

/-- The classification loop over `sourcefile.findall("line")`: a line child
with `mi == "0"` is appended to the covered list, any other line child to the
missed list; `nr` defaults to `0` when absent (`attrib.get("nr", 0)`).
Returns `(missed, covered)` in the source's order. -/
def jacocoClassifyStep (acc : List Int × List Int) (c : JacocoChild) : List Int × List Int :=
  match c with
  | .line nr mi =>
    if mi == some "0" then (acc.1, acc.2 ++ [nr.getD 0]) else (acc.1 ++ [nr.getD 0], acc.2)
  | .other => acc

def jacocoClassifyLines (children : List JacocoChild) : List Int × List Int :=
  children.foldl jacocoClassifyStep ([], [])

/-- `parse_missed_covered_lines_jacoco_xml`: returns `(missed, covered)` line
lists for the selected sourcefile, or two empty lists when the selection is
`None`. -/
def parse_missed_covered_lines_jacoco_xml (sfs : List JacocoSourcefile) (class_name : String) :
    List Int × List Int :=
  match jacocoSelectSourcefile sfs class_name with
  | none => ([], [])
  | some sf => jacocoClassifyLines sf.children

/-- `parse_missed_covered_lines_jacoco_csv`: the first row whose `PACKAGE` and
`CLASS` cells equal the extracted names yields `(missed, covered)` counts;
with no matching row both counts stay `0`. -/
def parse_missed_covered_lines_jacoco_csv (rows : List JacocoCsvRow)
    (package_name class_name : String) : Int × Int :=
  match rows.find? (fun r => r.PACKAGE == package_name && r.CLASS == class_name) with
  | some r => (r.LINE_MISSED, r.LINE_COVERED)
  | none => (0, 0)

/-- The dialect dispatch of `parse_coverage_report_jacoco` (lines 248-254):
extension `java` uses the Java extractor's result, `kt` the Kotlin one, and
any other extension falls back to the Java extractor (after a warning).
The two extractors read the source file with regex line-matching; their
results are taken as inputs here (no claim concerns the extraction itself). -/
def jacocoIdentity (source_file_extension : String) (javaIdent kotlinIdent : String × String) :
    String × String :=
  if source_file_extension == "java" then javaIdent
  else if source_file_extension == "kt" then kotlinIdent
  else javaIdent

/-- The ratio computation shared by both JaCoCo sub-formats (lines 267-268):
`total = missed + covered`, `(float(covered) / total) if total > 0 else 0`. -/
def jacocoRatio (missed covered : Int) : ℚ :=
  if missed + covered > 0 then (covered : ℚ) / (((missed + covered : Int) : ℚ)) else 0

/-- `parse_coverage_report_jacoco`: select the extracted identity by source
dialect, then dispatch on the report extension.  XML: per-line lists, with the
covered slot of the returned triple holding the covered list; CSV: the two
aggregate counts with the line lists left empty; any other extension raises
`ValueError`. -/
def parse_coverage_report_jacoco (source_file_extension : String)
    (javaIdent kotlinIdent : String × String) (report : JacocoReportFile) :
    Except String (List Int × List Int × ℚ) :=
  let pc := jacocoIdentity source_file_extension javaIdent kotlinIdent
  match report with
  | .xml sfs =>
    let r := parse_missed_covered_lines_jacoco_xml sfs pc.2
    Except.ok (r.2, r.1, jacocoRatio r.1.length r.2.length)
  | .csv rows =>
    let mc := parse_missed_covered_lines_jacoco_csv rows pc.1 pc.2
    Except.ok ([], [], jacocoRatio mc.1 mc.2)
  | .otherExt ext =>
    Except.error ("Unsupported JaCoCo code coverage report format: " ++ ext)

/-! ## Diff-coverage JSON reports

The decoded JSON document's `src_stats` mapping is modelled as the list of its
(path, stats) pairs in iteration order.  The target's relative path components
(`os.path.relpath(src_file_path).split(os.sep)`) depend on the process's
working directory and are taken as an input; `os.sep` is the POSIX `/`. -/

/-- The `src_stats` value for one reported file path. -/
structure DiffStats where
  covered_lines : List Int
  violation_lines : List Int
  percent_covered : ℚ
deriving DecidableEq, Repr

/-- Python `l[-n:]` for a component list: the last `n` elements, except that
`n = 0` yields the whole list (as `l[-0:] = l[0:]` does). -/
def pyTailSlice (l : List String) (n : Nat) : List String :=
  if n = 0 then l else l.drop (l.length - n)

/-- The matching test of `parse_json_diff_coverage_report`: the trailing
components of the entry's path (split on `os.sep`), taken to the length of the
target's component list, equal the target's components exactly. -/
def diffEntryMatches (src_relative_components : List String) (file_path : String) : Bool :=
  pyTailSlice (pySplit file_path "/") src_relative_components.length == src_relative_components

/-- `parse_json_diff_coverage_report`: the first `src_stats` entry whose path
suffix-matches the target components supplies `covered_lines`,
`violation_lines` and `percent_covered / 100`; with no match the result is
`([], [], 0.0)`. -/
def parse_json_diff_coverage_report (src_stats : List (String × DiffStats))
    (src_relative_components : List String) : List Int × List Int × ℚ :=
  match src_stats.find? (fun e => diffEntryMatches src_relative_components e.1) with
  | some e => (e.2.covered_lines, e.2.violation_lines, e.2.percent_covered / 100)
  | none => ([], [], 0)

/-! ## Freshness guard and dispatcher -/

/-- What the filesystem reports about the coverage report file: whether
`os.path.exists` holds, and `int(round(os.path.getmtime(...) * 1000))`. -/
structure ReportFileInfo where
  fileExists : Bool
  mtimeMs : Int
deriving DecidableEq, Repr

/-- Outcome of `verify_report_update`: an `AssertionError`, or success
recording whether the staleness warning was logged. -/
inductive VerifyOutcome where
  | assertionError (msg : String)
  | passed (warned : Bool)
deriving DecidableEq, Repr

/-- `verify_report_update`: assert the report file exists; warn (only) when
its modification time is not strictly newer than the test-command time. -/
def verify_report_update (file_path : String) (info : ReportFileInfo)
    (time_of_test_command : Int) : VerifyOutcome :=
  if info.fileExists then
    VerifyOutcome.passed (!(info.mtimeMs > time_of_test_command))
  else
    VerifyOutcome.assertionError
      ("Fatal: Coverage report \"" ++ file_path ++ "\" was not generated.")

/-- The normalized data a parse call returns: a `(covered, missed, ratio)`
triple, or the Cobertura bulk mapping.  Cobertura's single-file triple holds
the two deduplicated sets (Python materializes them as lists in unspecified
order); the other parsers' triples hold lists. -/
inductive CoverageOutput where
  | singleSets (covered missed : Finset Int) (ratio : ℚ)
  | single (covered missed : List Int) (ratio : ℚ)
  | bulk (entries : String → Option (Finset Int × Finset Int × ℚ))

/-- `parse_coverage_report_cobertura` with its optional `filename` argument:
the `if filename:` truthiness test sends `None` and the empty string to bulk
mode, any other string to single-file mode. -/
def parse_coverage_report_cobertura (report : List CoberturaClass)
    (filename : Option String) : CoverageOutput :=
  match filename with
  | some f =>
    if f == "" then CoverageOutput.bulk (coberturaBulkEntry report)
    else
      let r := coberturaSingleResult report f
      CoverageOutput.singleSets r.1 r.2.1 r.2.2
  | none => CoverageOutput.bulk (coberturaBulkEntry report)

/-- Everything a `CoverageProcessor` instance reads during one
`parse_coverage_report` call: the constructor arguments together with the
(decoded) contents of the files involved.  `coverage_type` is the string
value of the `CoverageType` enum member. -/
structure Descriptor where
  file_path : String
  src_file_path : String
  coverage_type : String
  use_report_coverage_feature_flag : Bool
  coberturaReport : List CoberturaClass
  lcovLines : List String
  jacocoSrcExt : String
  jacocoJavaIdent : String × String
  jacocoKotlinIdent : String × String
  jacocoReport : JacocoReportFile
  diffSrcStats : List (String × DiffStats)
  diffSrcComponents : List String

/-- `parse_coverage_report`: dispatch on the feature flag and the coverage
type.  With the flag on, `cobertura` is parsed in bulk mode (no filename) and
`diff_cover_json` is not selectable; with the flag off, `cobertura` is scoped
to the basename of the source path.  Unrecognized types raise `ValueError`
with a message naming the offending value. -/
def parse_coverage_report (d : Descriptor) : Except String CoverageOutput :=
  if d.use_report_coverage_feature_flag then
    if d.coverage_type == "cobertura" then
      Except.ok (parse_coverage_report_cobertura d.coberturaReport none)
    else if d.coverage_type == "lcov" then
      let r := parse_coverage_report_lcov d.lcovLines d.src_file_path
      Except.ok (CoverageOutput.single r.1 r.2.1 r.2.2)
    else if d.coverage_type == "jacoco" then
      (parse_coverage_report_jacoco d.jacocoSrcExt d.jacocoJavaIdent d.jacocoKotlinIdent
        d.jacocoReport).map (fun r => CoverageOutput.single r.1 r.2.1 r.2.2)
    else
      Except.error ("Unsupported coverage report type: " ++ d.coverage_type)
  else
    if d.coverage_type == "cobertura" then
      Except.ok (parse_coverage_report_cobertura d.coberturaReport (some (pyBasename d.src_file_path)))
    else if d.coverage_type == "lcov" then
      let r := parse_coverage_report_lcov d.lcovLines d.src_file_path
      Except.ok (CoverageOutput.single r.1 r.2.1 r.2.2)
    else if d.coverage_type == "jacoco" then
      (parse_coverage_report_jacoco d.jacocoSrcExt d.jacocoJavaIdent d.jacocoKotlinIdent
        d.jacocoReport).map (fun r => CoverageOutput.single r.1 r.2.1 r.2.2)
    else if d.coverage_type == "diff_cover_json" then
      let r := parse_json_diff_coverage_report d.diffSrcStats d.diffSrcComponents
      Except.ok (CoverageOutput.single r.1 r.2.1 r.2.2)
    else
      Except.error ("Unsupported coverage report type: " ++ d.coverage_type)

/-- `process_coverage_report`: verify the report file, then parse.  An
`AssertionError` from verification aborts the call; otherwise the parse result
is returned (the staleness warning does not affect control flow). -/
def process_coverage_report (d : Descriptor) (info : ReportFileInfo)
    (time_of_test_command : Int) : Except String CoverageOutput :=
  match verify_report_update d.file_path info time_of_test_command with
  | VerifyOutcome.assertionError msg => Except.error msg
  | VerifyOutcome.passed _ => parse_coverage_report d

/-! ## Shared lemmas -/

theorem coverageRatioOf_nonneg (c m : Nat) : 0 ≤ coverageRatioOf c m := by
  unfold coverageRatioOf
  split
  · positivity
  · exact le_refl 0

theorem coverageRatioOf_le_one (c m : Nat) : coverageRatioOf c m ≤ 1 := by
  unfold coverageRatioOf
  split
  · rename_i h
    rw [div_le_one (by exact_mod_cast h)]
    have : (c : ℚ) + 0 ≤ (c : ℚ) + m := by
      have : (0 : ℚ) ≤ m := by positivity
      linarith
    linarith
  · norm_num

theorem jacocoRatio_nonneg (m c : Int) (hm : 0 ≤ m) (hc : 0 ≤ c) : 0 ≤ jacocoRatio m c := by
  unfold jacocoRatio
  split
  · rename_i h
    apply div_nonneg
    · exact_mod_cast hc
    · exact_mod_cast le_of_lt h
  · exact le_refl 0

theorem jacocoRatio_le_one (m c : Int) (hm : 0 ≤ m) (hc : 0 ≤ c) : jacocoRatio m c ≤ 1 := by
  unfold jacocoRatio
  split
  · rename_i h
    rw [div_le_one (by exact_mod_cast h)]
    have : (m : ℚ) ≥ 0 := by exact_mod_cast hm
    push_cast
    linarith
  · norm_num

/-- C4: for every Cobertura report and target, in the single-file result and
in every per-file bulk entry the covered and missed sets are disjoint, and a
line covered by any matching class record never lands in the missed set. -/
theorem c4_cobertura_disjoint :
    (∀ (report : List CoberturaClass) (target : String),
      Disjoint (coberturaSingleResult report target).1 (coberturaSingleResult report target).2.1)
  ∧ (∀ (report : List CoberturaClass) (f : String) (e : Finset Int × Finset Int × ℚ),
      coberturaBulkEntry report f = some e → Disjoint e.1 e.2.1)
  ∧ (∀ (report : List CoberturaClass) (target : String) (c : CoberturaClass) (n : Int),
      c ∈ report → classMatches target c = true →
      n ∈ (parse_coverage_data_for_class c).1 →
      n ∉ (coberturaSingleResult report target).2.1) := by
  refine ⟨?_, ?_, ?_⟩
  · intro report target
    simp only [coberturaSingleResult, coberturaAccum]
    exact Finset.disjoint_sdiff
  · intro report f e he
    simp only [coberturaBulkEntry] at he
    split at he
    · cases he
      simp only [coberturaAccum]
      exact Finset.disjoint_sdiff
    · cases he
  · intro report target c n hc hmatch hn
    simp only [coberturaSingleResult, coberturaAccum, Finset.mem_sdiff, List.mem_toFinset,
      not_and, not_not]
    intro _
    simp only [List.mem_flatten, List.mem_map]
    exact ⟨(parse_coverage_data_for_class c).1, ⟨c, List.mem_filter.mpr ⟨hc, hmatch⟩, rfl⟩, hn⟩

/-- C4 witness: concrete report in which the same line is reported covered by
one matching class and missed by another. -/
theorem c4_cobertura_disjoint_witness :
    coberturaBulkEntry [⟨some "a.py", [⟨5, 1⟩]⟩, ⟨some "a.py", [⟨5, 0⟩]⟩] "a.py"
        = some ({5}, ∅, 1)
    ∧ Disjoint ({5} : Finset Int) (∅ : Finset Int)
    ∧ (5 : Int) ∉ (coberturaSingleResult [⟨some "a.py", [⟨5, 1⟩]⟩, ⟨some "a.py", [⟨5, 0⟩]⟩] "a.py").2.1 := by
  have hentry :
      coberturaBulkEntry [⟨some "a.py", [⟨5, 1⟩]⟩, ⟨some "a.py", [⟨5, 0⟩]⟩] "a.py"
        = some ({5}, ∅, 1) := by
    norm_num [coberturaBulkEntry, coberturaAccum, parse_coverage_data_for_class, coverageRatioOf]
    intro h
    exact absurd h (by decide)
  refine ⟨hentry, ?_, ?_⟩
  · exact c4_cobertura_disjoint.2.1 [⟨some "a.py", [⟨5, 1⟩]⟩, ⟨some "a.py", [⟨5, 0⟩]⟩] "a.py"
      ({5}, ∅, 1) hentry
  · exact c4_cobertura_disjoint.2.2 [⟨some "a.py", [⟨5, 1⟩]⟩, ⟨some "a.py", [⟨5, 0⟩]⟩] "a.py"
      ⟨some "a.py", [⟨5, 1⟩]⟩ 5 (by decide) (by decide) (by decide)

/-- C8: `verify_report_update` raises exactly when the report file does not
exist; when it exists but its modification time is not strictly newer than the
test-command timestamp, only the staleness warning is recorded and
`process_coverage_report` still proceeds to parsing. -/
theorem c8_verify_report_update :
    (∀ (path : String) (info : ReportFileInfo) (t : Int),
      (∃ msg, verify_report_update path info t = VerifyOutcome.assertionError msg)
        ↔ info.fileExists = false)
  ∧ (∀ (d : Descriptor) (info : ReportFileInfo) (t : Int),
      info.fileExists = true → info.mtimeMs ≤ t →
      verify_report_update d.file_path info t = VerifyOutcome.passed true
        ∧ process_coverage_report d info t = parse_coverage_report d) := by
  constructor
  · intro path info t
    constructor
    · rintro ⟨msg, hmsg⟩
      by_contra hne
      have hex : info.fileExists = true := by
        cases h : info.fileExists
        · exact absurd h hne
        · rfl
      simp [verify_report_update, hex] at hmsg
    · intro hex
      refine ⟨"Fatal: Coverage report \"" ++ path ++ "\" was not generated.", ?_⟩
      simp [verify_report_update, hex]
  · intro d info t hex hstale
    have hverify : verify_report_update d.file_path info t = VerifyOutcome.passed true := by
      simp [verify_report_update, hex]
      omega
    exact ⟨hverify, by simp [process_coverage_report, hverify]⟩

/-- C8 witness: an existing but stale report file passes verification with a
warning, and a missing one raises. -/
theorem c8_verify_report_update_witness :
    ((∃ msg, verify_report_update "cov.xml" ⟨false, 100⟩ 50 = VerifyOutcome.assertionError msg)
        ↔ (false = false))
    ∧ verify_report_update "cov.xml" ⟨true, 100⟩ 100 = VerifyOutcome.passed true := by
  constructor
  · exact c8_verify_report_update.1 "cov.xml" ⟨false, 100⟩ 50
  · exact (c8_verify_report_update.2
      ⟨"cov.xml", "", "", false, [], [], "", ("", ""), ("", ""), JacocoReportFile.xml [], [], []⟩
      ⟨true, 100⟩ 100 rfl (by norm_num)).1

/-- C10: with the feature flag disabled, a `cobertura` descriptor whose source
path has an empty basename is parsed in bulk mode — the empty filename string
is falsy, so `parse_coverage_report_cobertura` takes its `filename is None`
branch and the call returns the filename-to-triple mapping. -/
theorem c10_empty_basename_bulk (d : Descriptor)
    (hflag : d.use_report_coverage_feature_flag = false)
    (htype : d.coverage_type = "cobertura")
    (hbase : pyBasename d.src_file_path = "") :
    parse_coverage_report d
      = Except.ok (CoverageOutput.bulk (coberturaBulkEntry d.coberturaReport)) := by
  simp [parse_coverage_report, hflag, htype, hbase, parse_coverage_report_cobertura]

/-- C10 witness: a source path ending in a path separator has empty basename
and selects bulk mode under the disabled flag. -/
theorem c10_empty_basename_bulk_witness :
    parse_coverage_report
      ⟨"cov.xml", "some/dir/", "cobertura", false, [⟨some "a.py", [⟨1, 1⟩]⟩], [], "",
        ("", ""), ("", ""), JacocoReportFile.xml [], [], []⟩
      = Except.ok (CoverageOutput.bulk (coberturaBulkEntry [⟨some "a.py", [⟨1, 1⟩]⟩])) := by
  exact c10_empty_basename_bulk _ rfl rfl (by simp [pyBasename, pySplit, listSplit])

/-- C6: an unrecognized coverage type for the current feature-flag state fails
with a `ValueError` naming the offending value; with the flag enabled the
`diff_cover_json` type is among the unrecognized ones, while `cobertura`
dispatches to bulk mode (filename omitted). -/
theorem c6_dispatcher_unsupported :
    (∀ d : Descriptor, d.use_report_coverage_feature_flag = true →
      d.coverage_type ∉ (["cobertura", "lcov", "jacoco"] : List String) →
      parse_coverage_report d
        = Except.error ("Unsupported coverage report type: " ++ d.coverage_type))
  ∧ (∀ d : Descriptor, d.use_report_coverage_feature_flag = false →
      d.coverage_type ∉ (["cobertura", "lcov", "jacoco", "diff_cover_json"] : List String) →
      parse_coverage_report d
        = Except.error ("Unsupported coverage report type: " ++ d.coverage_type))
  ∧ (∀ d : Descriptor, d.use_report_coverage_feature_flag = true →
      d.coverage_type = "diff_cover_json" →
      parse_coverage_report d
        = Except.error ("Unsupported coverage report type: " ++ d.coverage_type))
  ∧ (∀ d : Descriptor, d.use_report_coverage_feature_flag = true →
      d.coverage_type = "cobertura" →
      parse_coverage_report d
        = Except.ok (CoverageOutput.bulk (coberturaBulkEntry d.coberturaReport))) := by
  refine ⟨?_, ?_, ?_, ?_⟩
  · intro d hflag hmem
    simp only [List.mem_cons, List.not_mem_nil, or_false, not_or] at hmem
    obtain ⟨h1, h2, h3⟩ := hmem
    simp [parse_coverage_report, hflag, beq_eq_false_iff_ne, h1, h2, h3]
  · intro d hflag hmem
    simp only [List.mem_cons, List.not_mem_nil, or_false, not_or] at hmem
    obtain ⟨h1, h2, h3, h4⟩ := hmem
    simp [parse_coverage_report, hflag, beq_eq_false_iff_ne, h1, h2, h3, h4]
  · intro d hflag htype
    simp [parse_coverage_report, hflag, htype]
  · intro d hflag htype
    simp [parse_coverage_report, hflag, htype, parse_coverage_report_cobertura]

/-- C6 witness: with the flag enabled, a `diff_cover_json` descriptor fails
with the naming error and a `cobertura` one yields the bulk mapping. -/
theorem c6_dispatcher_unsupported_witness :
    parse_coverage_report
      ⟨"cov.json", "src/a.py", "diff_cover_json", true, [], [], "", ("", ""), ("", ""),
        JacocoReportFile.xml [], [], []⟩
      = Except.error "Unsupported coverage report type: diff_cover_json"
    ∧ parse_coverage_report
      ⟨"cov.xml", "src/a.py", "cobertura", true, [⟨some "a.py", [⟨1, 1⟩]⟩], [], "",
        ("", ""), ("", ""), JacocoReportFile.xml [], [], []⟩
      = Except.ok (CoverageOutput.bulk (coberturaBulkEntry [⟨some "a.py", [⟨1, 1⟩]⟩]))
    ∧ parse_coverage_report
      ⟨"cov.xml", "src/a.py", "teamcity", false, [], [], "", ("", ""), ("", ""),
        JacocoReportFile.xml [], [], []⟩
      = Except.error "Unsupported coverage report type: teamcity" := by
  refine ⟨?_, ?_, ?_⟩
  · exact c6_dispatcher_unsupported.2.2.1 _ rfl rfl
  · exact c6_dispatcher_unsupported.2.2.2 _ rfl rfl
  · exact c6_dispatcher_unsupported.2.1 _ rfl (by decide)

/-- The line children of a sourcefile whose `mi` attribute equals `"0"`,
in document order (the covered lines, per the spec's semantics). -/
def jacocoLinesWithMiZero (children : List JacocoChild) : List Int :=
  children.filterMap (fun c =>
    match c with
    | .line nr mi => if mi == some "0" then some (nr.getD 0) else none
    | .other => none)

/-- The line children of a sourcefile whose `mi` attribute differs from `"0"`
(or is absent), in document order (the missed lines, per the spec's semantics). -/
def jacocoLinesWithMiNonzero (children : List JacocoChild) : List Int :=
  children.filterMap (fun c =>
    match c with
    | .line nr mi => if mi == some "0" then none else some (nr.getD 0)
    | .other => none)

theorem jacocoClassifyLines_go (children : List JacocoChild) (m c : List Int) :
    children.foldl jacocoClassifyStep (m, c)
      = (m ++ jacocoLinesWithMiNonzero children, c ++ jacocoLinesWithMiZero children) := by
  induction children generalizing m c with
  | nil => simp [jacocoLinesWithMiNonzero, jacocoLinesWithMiZero]
  | cons ch rest ih =>
    rw [List.foldl_cons]
    cases ch with
    | line nr mi =>
      by_cases hmi : mi = some "0"
      · rw [show jacocoClassifyStep (m, c) (JacocoChild.line nr mi) = (m, c ++ [nr.getD 0]) by
          simp [jacocoClassifyStep, hmi]]
        simp [ih, jacocoLinesWithMiNonzero, jacocoLinesWithMiZero, List.filterMap_cons, hmi]
      · rw [show jacocoClassifyStep (m, c) (JacocoChild.line nr mi) = (m ++ [nr.getD 0], c) by
          simp [jacocoClassifyStep, hmi]]
        simp [ih, jacocoLinesWithMiNonzero, jacocoLinesWithMiZero, List.filterMap_cons, hmi]
    | other =>
      rw [show jacocoClassifyStep (m, c) JacocoChild.other = (m, c) from rfl]
      simp [ih, jacocoLinesWithMiNonzero, jacocoLinesWithMiZero, List.filterMap_cons]

theorem jacocoClassifyLines_eq (children : List JacocoChild) :
    jacocoClassifyLines children
      = (jacocoLinesWithMiNonzero children, jacocoLinesWithMiZero children) := by
  have := jacocoClassifyLines_go children [] []
  simpa [jacocoClassifyLines] using this

/-- C5: when a sourcefile element is selected, the XML line parse returns
exactly the `mi == "0"` line children as covered and the rest as missed, and
through `parse_coverage_report_jacoco` the covered slot of the final triple
holds the `mi == "0"` lines. -/
theorem c5_jacoco_xml_mi_zero :
    (∀ (sfs : List JacocoSourcefile) (cn : String) (sf : JacocoSourcefile),
      jacocoSelectSourcefile sfs cn = some sf →
      parse_missed_covered_lines_jacoco_xml sfs cn
        = (jacocoLinesWithMiNonzero sf.children, jacocoLinesWithMiZero sf.children))
  ∧ (∀ (ext : String) (jIdent kIdent : String × String) (sfs : List JacocoSourcefile)
      (sf : JacocoSourcefile),
      jacocoSelectSourcefile sfs (jacocoIdentity ext jIdent kIdent).2 = some sf →
      parse_coverage_report_jacoco ext jIdent kIdent (JacocoReportFile.xml sfs)
        = Except.ok (jacocoLinesWithMiZero sf.children, jacocoLinesWithMiNonzero sf.children,
            jacocoRatio (jacocoLinesWithMiNonzero sf.children).length
              (jacocoLinesWithMiZero sf.children).length)) := by
  have hparse : ∀ (sfs : List JacocoSourcefile) (cn : String) (sf : JacocoSourcefile),
      jacocoSelectSourcefile sfs cn = some sf →
      parse_missed_covered_lines_jacoco_xml sfs cn
        = (jacocoLinesWithMiNonzero sf.children, jacocoLinesWithMiZero sf.children) := by
    intro sfs cn sf hsel
    simp [parse_missed_covered_lines_jacoco_xml, hsel, jacocoClassifyLines_eq]
  refine ⟨hparse, ?_⟩
  intro ext jIdent kIdent sfs sf hsel
  simp [parse_coverage_report_jacoco, hparse sfs _ sf hsel]

/-- C5 witness: a sourcefile with one `mi="0"` line and one `mi="3"` line. -/
theorem c5_jacoco_xml_mi_zero_witness :
    parse_coverage_report_jacoco "java" ("com", "Foo") ("", "")
      (JacocoReportFile.xml
        [⟨"Foo.java", [JacocoChild.line (some 7) (some "0"), JacocoChild.line (some 8) (some "3")]⟩])
      = Except.ok ([7], [8], jacocoRatio 1 1) := by
  exact c5_jacoco_xml_mi_zero.2 "java" ("com", "Foo") ("", "")
    [⟨"Foo.java", [JacocoChild.line (some 7) (some "0"), JacocoChild.line (some 8) (some "3")]⟩]
    ⟨"Foo.java", [JacocoChild.line (some 7) (some "0"), JacocoChild.line (some 8) (some "3")]⟩
    (by decide)

theorem diffEntryMatches_iff (comps : List String) (p : String) (hc : comps ≠ []) :
    diffEntryMatches comps p = true ↔ comps <:+ pySplit p "/" := by
  have hlen : comps.length ≠ 0 := by
    simpa [List.length_eq_zero] using hc
  rw [diffEntryMatches, pyTailSlice, if_neg hlen, beq_iff_eq, List.suffix_iff_eq_drop]
  exact ⟨fun h => h.symm, fun h => h.symm⟩

/-- C7: the diff-JSON parser selects the first `src_stats` entry whose path's
trailing components equal the target's components (prefix-tolerant suffix
match), and with no matching entry it returns empty lists and ratio `0.0`
rather than an error. -/
theorem c7_diff_json_suffix_match :
    ∀ (stats : List (String × DiffStats)) (comps : List String), comps ≠ [] →
    ((∀ e ∈ stats, ¬ comps <:+ pySplit e.1 "/") →
      parse_json_diff_coverage_report stats comps = ([], [], 0))
    ∧ (∀ (pre rest : List (String × DiffStats)) (p : String) (s : DiffStats),
        stats = pre ++ (p, s) :: rest →
        (∀ e ∈ pre, ¬ comps <:+ pySplit e.1 "/") →
        comps <:+ pySplit p "/" →
        parse_json_diff_coverage_report stats comps
          = (s.covered_lines, s.violation_lines, s.percent_covered / 100)) := by
  intro stats comps hc
  constructor
  · intro hnone
    have hfind : stats.find? (fun e => diffEntryMatches comps e.1) = none := by
      rw [List.find?_eq_none]
      intro e he
      cases habs : diffEntryMatches comps e.1
      · simp [habs]
      · exact absurd ((diffEntryMatches_iff comps e.1 hc).mp habs) (hnone e he)
    simp [parse_json_diff_coverage_report, hfind]
  · intro pre rest p s hsplit hpre hmatch
    have hfindpre : pre.find? (fun e => diffEntryMatches comps e.1) = none := by
      rw [List.find?_eq_none]
      intro e he
      cases habs : diffEntryMatches comps e.1
      · simp [habs]
      · exact absurd ((diffEntryMatches_iff comps e.1 hc).mp habs) (hpre e he)
    have hp : (fun (e : String × DiffStats) => diffEntryMatches comps e.1) (p, s) = true :=
      (diffEntryMatches_iff comps p hc).mpr hmatch
    have hfind : stats.find? (fun e => diffEntryMatches comps e.1) = some (p, s) := by
      rw [hsplit, List.find?_append, hfindpre, Option.none_or]
      exact List.find?_cons_of_pos (p := fun (e : String × DiffStats) => diffEntryMatches comps e.1)
        rest hp
    simp [parse_json_diff_coverage_report, hfind]

/-- C7 witness: the spec's example — entry key `/home/ci/repo/app/mod.py`
matches target components `app/mod.py` despite the differing prefix — and a
no-match report yields the empty triple. -/
theorem c7_diff_json_suffix_match_witness :
    parse_json_diff_coverage_report
      [("/home/ci/repo/app/mod.py", ⟨[3], [4], 50⟩)] ["app", "mod.py"]
      = ([3], [4], (50 : ℚ) / 100)
    ∧ parse_json_diff_coverage_report
      [("/home/ci/repo/app/mod.py", ⟨[3], [4], 50⟩)] ["lib", "mod.py"]
      = ([], [], 0) := by
  constructor
  · exact (c7_diff_json_suffix_match [("/home/ci/repo/app/mod.py", ⟨[3], [4], 50⟩)]
      ["app", "mod.py"] (by decide)).2 [] [] "/home/ci/repo/app/mod.py" ⟨[3], [4], 50⟩
      rfl (by simp)
      (by simp [pySplit, listSplit]
          decide)
  · exact (c7_diff_json_suffix_match [("/home/ci/repo/app/mod.py", ⟨[3], [4], 50⟩)]
      ["lib", "mod.py"] (by decide)).1
      (by intro e he
          simp only [List.mem_singleton] at he
          subst he
          simp [pySplit, listSplit]
          decide)

/-- C9 counterexample: a `Foo.java` sourcefile that exists with zero `line`
children but one other (e.g. `counter`) child is truthy, so it is NOT treated
as absent: the parser keeps it and returns empty lists instead of falling
through to the `Foo.kt` sourcefile, whose line data would have produced
`([], [1])`. -/
theorem c9_jacoco_counterexample :
    parse_missed_covered_lines_jacoco_xml
      [⟨"Foo.java", [JacocoChild.other]⟩, ⟨"Foo.kt", [JacocoChild.line (some 1) (some "0")]⟩]
      "Foo"
      = ([], [])
    ∧ parse_missed_covered_lines_jacoco_xml
      [⟨"Foo.java", [JacocoChild.other]⟩, ⟨"Foo.kt", [JacocoChild.line (some 1) (some "0")]⟩]
      "Foo"
      ≠ ([], [1]) := by
  constructor
  · decide
  · decide

/-- C9 (amended): a `<type_name>.java` sourcefile that exists but has zero
children of any kind (the element truth value is its child count, so zero
`line` children alone is not enough) is treated as absent: the parser falls
through to the `<type_name>.kt` lookup, and if that finds nothing it returns
empty covered and missed lists. -/
theorem c9_jacoco_fallback_amended (sfs : List JacocoSourcefile) (cn : String)
    (sf : JacocoSourcefile)
    (hjava : sfs.find? (fun s => s.name == cn ++ ".java") = some sf)
    (hempty : sf.children = []) :
    jacocoSelectSourcefile sfs cn = sfs.find? (fun s => s.name == cn ++ ".kt")
    ∧ (sfs.find? (fun s => s.name == cn ++ ".kt") = none →
        parse_missed_covered_lines_jacoco_xml sfs cn = ([], [])) := by
  have hsel : jacocoSelectSourcefile sfs cn = sfs.find? (fun s => s.name == cn ++ ".kt") := by
    simp [jacocoSelectSourcefile, hjava, hempty]
  refine ⟨hsel, ?_⟩
  intro hkt
  simp [parse_missed_covered_lines_jacoco_xml, hsel, hkt]

/-- C9 witness: a childless `Foo.java` sourcefile with no `Foo.kt` companion
yields empty lists. -/
theorem c9_jacoco_fallback_witness :
    jacocoSelectSourcefile [⟨"Foo.java", []⟩] "Foo"
      = List.find? (fun s => s.name == "Foo" ++ ".kt") [⟨"Foo.java", []⟩]
    ∧ parse_missed_covered_lines_jacoco_xml [⟨"Foo.java", []⟩] "Foo" = ([], []) := by
  have h := c9_jacoco_fallback_amended [⟨"Foo.java", []⟩] "Foo" ⟨"Foo.java", []⟩
    (by decide) rfl
  exact ⟨h.1, h.2 (by decide)⟩

/-- C3 counterexample: single-file mode suffix-matches `filename` attributes
while bulk mode keys by the exact attribute, so with classes `a.py` and
`src/a.py` the bulk entry for `a.py` covers only line 1 while single-file
mode for `a.py` merges both classes and covers lines 1 and 2. -/
theorem c3_cobertura_modes_counterexample :
    (coberturaBulkEntry [⟨some "a.py", [⟨1, 1⟩]⟩, ⟨some "src/a.py", [⟨2, 1⟩]⟩] "a.py").map
        (fun e => e.1)
      = some ({1} : Finset Int)
    ∧ (coberturaSingleResult [⟨some "a.py", [⟨1, 1⟩]⟩, ⟨some "src/a.py", [⟨2, 1⟩]⟩] "a.py").1
      = ({1, 2} : Finset Int)
    ∧ ({1} : Finset Int) ≠ ({1, 2} : Finset Int) := by
  refine ⟨by decide, by decide, by decide⟩

/-- C3 (amended): bulk mode restricted to a target filename agrees with
single-file mode whenever no other class filename in the report has the
target as a proper suffix — i.e. every suffix-matching `filename` attribute
is exactly the target.  Then the bulk entry for the target (when it exists)
has the same covered and missed sets as single-file mode, and when no class
carries the target as its exact filename both single-file sets are empty. -/
theorem c3_cobertura_modes_agree_amended (report : List CoberturaClass) (target : String)
    (htarget : target ≠ "")
    (hexact : ∀ c ∈ report, ∀ f, c.filename = some f → strEndsWith f target = true → f = target) :
    (∀ e, coberturaBulkEntry report target = some e →
      e.1 = (coberturaSingleResult report target).1
        ∧ e.2.1 = (coberturaSingleResult report target).2.1)
    ∧ (coberturaBulkEntry report target = none →
      (coberturaSingleResult report target).1 = ∅
        ∧ (coberturaSingleResult report target).2.1 = ∅) := by
  have hfilters : report.filter (classMatches target)
      = report.filter (fun c => c.filename == some target) := by
    apply List.filter_congr
    intro c hc
    cases hf : c.filename with
    | none => simp [classMatches, hf]
    | some f =>
      by_cases hft : f = target
      · subst hft
        simp [classMatches, hf, htarget, strEndsWith, List.suffix_refl]
      · have hends : strEndsWith f target = false := by
          cases hends : strEndsWith f target
          · rfl
          · exact absurd (hexact c hc f hf hends) hft
        simp [classMatches, hf, hends, hft]
  constructor
  · intro e he
    simp only [coberturaBulkEntry] at he
    split at he
    · cases he
      simp [coberturaSingleResult, hfilters]
    · cases he
  · intro hnone
    simp only [coberturaBulkEntry] at hnone
    split at hnone
    · cases hnone
    · rename_i hcond
      simp only [Bool.and_eq_true, Bool.not_eq_true', beq_eq_false_iff_ne, not_and] at hcond
      have hany : report.any (fun c => c.filename == some target) = false := by
        cases hananas : report.any (fun c => c.filename == some target)
        · rfl
        · exact absurd hananas (by simpa using hcond (by simpa using htarget))
      have hempty : report.filter (fun c => c.filename == some target) = [] := by
        rw [List.filter_eq_nil_iff]
        intro c hc
        have := (List.any_eq_false.mp hany) c hc
        simpa using this
      simp [coberturaSingleResult, hfilters, hempty, coberturaAccum]

/-- C3 witness: a report whose only matching class filename is exactly the
target; both modes agree on the covered and missed sets. -/
theorem c3_cobertura_modes_agree_witness :
    ((coberturaBulkEntry [⟨some "a.py", [⟨1, 1⟩, ⟨2, 0⟩]⟩] "a.py").map (fun e => (e.1, e.2.1))
        = some ((coberturaSingleResult [⟨some "a.py", [⟨1, 1⟩, ⟨2, 0⟩]⟩] "a.py").1,
            (coberturaSingleResult [⟨some "a.py", [⟨1, 1⟩, ⟨2, 0⟩]⟩] "a.py").2.1)) := by
  have hsome : (coberturaBulkEntry [⟨some "a.py", [⟨1, 1⟩, ⟨2, 0⟩]⟩] "a.py").isSome = true := by
    decide
  obtain ⟨e, he⟩ := Option.isSome_iff_exists.mp hsome
  have h := (c3_cobertura_modes_agree_amended [⟨some "a.py", [⟨1, 1⟩, ⟨2, 0⟩]⟩] "a.py"
    (by decide)
    (by intro c hc f hcf hends
        simp only [List.mem_singleton] at hc
        subst hc
        simp only [Option.some.injEq] at hcf
        exact hcf.symm)).1 e he
  rw [he]
  simp only [Option.map]
  rw [h.1, h.2]

theorem lcovReadBlock_append (body : List String) : ∀ (rest : List String) (cov mis : List Int),
    (∀ l ∈ body, strStartsWith (pyStrip l) "end_of_record" = false) →
    lcovReadBlock (body ++ "end_of_record" :: rest) cov mis
      = (rest, (lcovReadBlock body cov mis).2.1, (lcovReadBlock body cov mis).2.2) := by
  induction body with
  | nil =>
    intro rest cov mis _
    have h1 : strStartsWith (pyStrip "end_of_record") "DA:" = false := by decide
    have h2 : strStartsWith (pyStrip "end_of_record") "end_of_record" = true := by decide
    simp [lcovReadBlock, h1, h2]
  | cons l body ih =>
    intro rest cov mis hb
    have hbl := hb l (List.mem_cons_self l body)
    have hbrest : ∀ x ∈ body, strStartsWith (pyStrip x) "end_of_record" = false :=
      fun x hx => hb x (List.mem_cons_of_mem l hx)
    cases hda : strStartsWith (pyStrip l) "DA:"
    · simp only [List.cons_append, lcovReadBlock, hda, hbl, Bool.false_eq_true, if_false]
      exact ih rest cov mis hbrest
    · simp only [List.cons_append, lcovReadBlock, hda, if_true]
      exact ih rest _ _ hbrest

/-- C1 counterexample: an LCOV report with two `SF:` blocks for `foo.c` yields
the data of BOTH blocks — line 2 of the second block lands in the missed list
— so the `DA:` lines of later matching blocks are not ignored. -/
theorem c1_lcov_counterexample :
    parse_coverage_report_lcov
      ["SF:foo.c", "DA:1,1", "end_of_record", "SF:foo.c", "DA:2,0", "end_of_record"] "foo.c"
      = ([1], [2], 1 / 2)
    ∧ (2 : Int) ∈ (parse_coverage_report_lcov
      ["SF:foo.c", "DA:1,1", "end_of_record", "SF:foo.c", "DA:2,0", "end_of_record"] "foo.c").2.1 := by
  have heval : parse_coverage_report_lcov
      ["SF:foo.c", "DA:1,1", "end_of_record", "SF:foo.c", "DA:2,0", "end_of_record"] "foo.c"
      = ([1], [2], 1 / 2) := by
    simp +decide [parse_coverage_report_lcov, lcovOuterScan, lcovReadBlock, lcovClassifyDA,
      pyBasename, pySplit, listSplit, pyStrip, pyIsSpace, strStartsWith, strEndsWith,
      pyReplace, listReplace, pyParseInt, digitsVal, coverageRatioOf]
    norm_num
  exact ⟨heval, by rw [heval]; exact List.mem_singleton.mpr rfl⟩

/-- C1 (amended): after a matching `SF:` block's `end_of_record`, the LCOV
scan does NOT stop — the outer loop resumes on the remaining lines with the
block's classified `DA:` data already accumulated, so every later matching
`SF:` block contributes its `DA:` data as well. -/
theorem c1_lcov_scan_continues (sfLine : String) (body rest : List String)
    (filename : String) (cov mis : List Int)
    (hsf : strStartsWith (pyStrip sfLine) "SF:" = true)
    (hmatch : strEndsWith (pyStrip sfLine) filename = true)
    (hb : ∀ l ∈ body, strStartsWith (pyStrip l) "end_of_record" = false) :
    lcovOuterScan (sfLine :: (body ++ "end_of_record" :: rest)) filename cov mis
      = lcovOuterScan rest filename (lcovReadBlock body cov mis).2.1
          (lcovReadBlock body cov mis).2.2 := by
  rw [lcovOuterScan]
  simp only [hsf, hmatch, Bool.and_self, if_true]
  rw [lcovReadBlock_append body rest cov mis hb]

/-- C1 witness: instantiating the continuation theorem on the counterexample
report shows the scan resumes after the first block with `([1], [])`
accumulated and then processes the second matching block. -/
theorem c1_lcov_scan_continues_witness :
    lcovOuterScan
      ("SF:foo.c" :: (["DA:1,1"] ++ "end_of_record" :: ["SF:foo.c", "DA:2,0", "end_of_record"]))
      "foo.c" [] []
      = lcovOuterScan ["SF:foo.c", "DA:2,0", "end_of_record"] "foo.c"
          (lcovReadBlock ["DA:1,1"] [] []).2.1 (lcovReadBlock ["DA:1,1"] [] []).2.2 := by
  exact c1_lcov_scan_continues "SF:foo.c" ["DA:1,1"] ["SF:foo.c", "DA:2,0", "end_of_record"]
    "foo.c" [] [] (by decide) (by decide)
    (by intro l hl
        simp only [List.mem_singleton] at hl
        subst hl
        decide)

/-- C2 counterexample: the JaCoCo CSV sub-format returns empty covered and
missed line lists while the ratio, computed from the matched row's aggregate
counts, is `1/2 ≠ 0` — refuting "ratio equals 0 whenever both returned
line lists are empty". -/
theorem c2_ratio_counterexample :
    parse_coverage_report_jacoco "java" ("com", "Foo") ("", "")
      (JacocoReportFile.csv [⟨"com", "Foo", 1, 1⟩])
      = Except.ok ([], [], 1 / 2)
    ∧ ((1 : ℚ) / 2 ≠ 0) := by
  constructor
  · norm_num [parse_coverage_report_jacoco, jacocoIdentity, parse_missed_covered_lines_jacoco_csv,
      jacocoRatio, List.find?]
  · norm_num

/-- C2 (amended): the ratio invariant `0 ≤ ratio ≤ 1`, with `ratio = 0` when
both returned line lists are empty, holds for the Cobertura parser (both
modes), the LCOV parser and the JaCoCo XML sub-format unconditionally; for
the JaCoCo CSV sub-format the bound holds given the report's non-negative
counts but the line lists are ALWAYS empty while the ratio comes from the
aggregate counts; for the diff-JSON parser the invariant holds provided the
report's `percent_covered` values lie in `[0, 100]` and vanish on entries
with empty line lists. -/
theorem c2_ratio_invariant_amended :
    (∀ (report : List CoberturaClass) (target : String),
      0 ≤ (coberturaSingleResult report target).2.2
        ∧ (coberturaSingleResult report target).2.2 ≤ 1
        ∧ ((coberturaSingleResult report target).1 = ∅ →
            (coberturaSingleResult report target).2.1 = ∅ →
            (coberturaSingleResult report target).2.2 = 0))
  ∧ (∀ (report : List CoberturaClass) (f : String) (e : Finset Int × Finset Int × ℚ),
      coberturaBulkEntry report f = some e →
      0 ≤ e.2.2 ∧ e.2.2 ≤ 1 ∧ (e.1 = ∅ → e.2.1 = ∅ → e.2.2 = 0))
  ∧ (∀ (fileLines : List String) (src : String),
      0 ≤ (parse_coverage_report_lcov fileLines src).2.2
        ∧ (parse_coverage_report_lcov fileLines src).2.2 ≤ 1
        ∧ ((parse_coverage_report_lcov fileLines src).1 = [] →
            (parse_coverage_report_lcov fileLines src).2.1 = [] →
            (parse_coverage_report_lcov fileLines src).2.2 = 0))
  ∧ (∀ (ext : String) (jI kI : String × String) (sfs : List JacocoSourcefile)
      (t : List Int × List Int × ℚ),
      parse_coverage_report_jacoco ext jI kI (JacocoReportFile.xml sfs) = Except.ok t →
      0 ≤ t.2.2 ∧ t.2.2 ≤ 1 ∧ (t.1 = [] → t.2.1 = [] → t.2.2 = 0))
  ∧ (∀ (ext : String) (jI kI : String × String) (rows : List JacocoCsvRow)
      (t : List Int × List Int × ℚ),
      (∀ r ∈ rows, 0 ≤ r.LINE_MISSED ∧ 0 ≤ r.LINE_COVERED) →
      parse_coverage_report_jacoco ext jI kI (JacocoReportFile.csv rows) = Except.ok t →
      t.1 = [] ∧ t.2.1 = [] ∧ 0 ≤ t.2.2 ∧ t.2.2 ≤ 1)
  ∧ (∀ (stats : List (String × DiffStats)) (comps : List String),
      (∀ e ∈ stats, 0 ≤ e.2.percent_covered ∧ e.2.percent_covered ≤ 100
        ∧ (e.2.covered_lines = [] → e.2.violation_lines = [] → e.2.percent_covered = 0)) →
      0 ≤ (parse_json_diff_coverage_report stats comps).2.2
        ∧ (parse_json_diff_coverage_report stats comps).2.2 ≤ 1
        ∧ ((parse_json_diff_coverage_report stats comps).1 = [] →
            (parse_json_diff_coverage_report stats comps).2.1 = [] →
            (parse_json_diff_coverage_report stats comps).2.2 = 0)) := by
  refine ⟨?_, ?_, ?_, ?_, ?_, ?_⟩
  · intro report target
    refine ⟨coverageRatioOf_nonneg _ _, coverageRatioOf_le_one _ _, ?_⟩
    intro h1 h2
    simp only [coberturaSingleResult] at h1 h2 ⊢
    rw [h1, h2]
    norm_num [coverageRatioOf]
  · intro report f e he
    simp only [coberturaBulkEntry] at he
    split at he
    · cases he
      refine ⟨coverageRatioOf_nonneg _ _, coverageRatioOf_le_one _ _, ?_⟩
      intro h1 h2
      simp only at h1 h2 ⊢
      rw [h1, h2]
      norm_num [coverageRatioOf]
    · cases he
  · intro fileLines src
    refine ⟨coverageRatioOf_nonneg _ _, coverageRatioOf_le_one _ _, ?_⟩
    intro h1 h2
    simp only [parse_coverage_report_lcov] at h1 h2 ⊢
    rw [h1, h2]
    norm_num [coverageRatioOf]
  · intro ext jI kI sfs t ht
    simp only [parse_coverage_report_jacoco, Except.ok.injEq] at ht
    subst ht
    refine ⟨jacocoRatio_nonneg _ _ (by positivity) (by positivity),
      jacocoRatio_le_one _ _ (by positivity) (by positivity), ?_⟩
    intro h1 h2
    simp only at h1 h2 ⊢
    rw [h1, h2]
    norm_num [jacocoRatio]
  · intro ext jI kI rows t hrows ht
    simp only [parse_coverage_report_jacoco, Except.ok.injEq] at ht
    subst ht
    have hmc : 0 ≤ (parse_missed_covered_lines_jacoco_csv rows
        (jacocoIdentity ext jI kI).1 (jacocoIdentity ext jI kI).2).1
        ∧ 0 ≤ (parse_missed_covered_lines_jacoco_csv rows
        (jacocoIdentity ext jI kI).1 (jacocoIdentity ext jI kI).2).2 := by
      unfold parse_missed_covered_lines_jacoco_csv
      cases hfind : rows.find? (fun r =>
          r.PACKAGE == (jacocoIdentity ext jI kI).1 && r.CLASS == (jacocoIdentity ext jI kI).2) with
      | none => simp
      | some r =>
        have hmem := List.mem_of_find?_eq_some hfind
        simpa using hrows r hmem
    exact ⟨rfl, rfl, jacocoRatio_nonneg _ _ hmc.1 hmc.2, jacocoRatio_le_one _ _ hmc.1 hmc.2⟩
  · intro stats comps hstats
    unfold parse_json_diff_coverage_report
    cases hfind : stats.find? (fun e => diffEntryMatches comps e.1) with
    | none => norm_num
    | some e =>
      have hmem := List.mem_of_find?_eq_some hfind
      obtain ⟨hp0, hp100, hpz⟩ := hstats e hmem
      dsimp only
      refine ⟨by positivity, ?_, ?_⟩
      · rw [div_le_one (by norm_num)]
        linarith
      · intro h1 h2
        rw [hpz h1 h2]
        norm_num

/-- C2 witness: the amended invariant instantiated on a concrete JaCoCo CSV
report (non-negative counts) and a concrete diff-JSON report (percent within
bounds). -/
theorem c2_ratio_invariant_witness :
    (([] : List Int) = [] ∧ ([] : List Int) = []
      ∧ 0 ≤ jacocoRatio 1 1 ∧ jacocoRatio 1 1 ≤ 1)
    ∧ (0 ≤ (parse_json_diff_coverage_report [("app/mod.py", ⟨[3], [4], 50⟩)] ["app", "mod.py"]).2.2
      ∧ (parse_json_diff_coverage_report [("app/mod.py", ⟨[3], [4], 50⟩)] ["app", "mod.py"]).2.2 ≤ 1
      ∧ ((parse_json_diff_coverage_report [("app/mod.py", ⟨[3], [4], 50⟩)] ["app", "mod.py"]).1 = [] →
          (parse_json_diff_coverage_report [("app/mod.py", ⟨[3], [4], 50⟩)] ["app", "mod.py"]).2.1 = [] →
          (parse_json_diff_coverage_report [("app/mod.py", ⟨[3], [4], 50⟩)] ["app", "mod.py"]).2.2 = 0)) := by
  constructor
  · exact c2_ratio_invariant_amended.2.2.2.2.1 "java" ("com", "Foo") ("", "")
      [⟨"com", "Foo", 1, 1⟩] ([], [], jacocoRatio 1 1)
      (by intro r hr
          simp only [List.mem_singleton] at hr
          subst hr
          exact ⟨by norm_num, by norm_num⟩)
      rfl
  · exact c2_ratio_invariant_amended.2.2.2.2.2 [("app/mod.py", ⟨[3], [4], 50⟩)] ["app", "mod.py"]
      (by intro e he
          simp only [List.mem_singleton] at he
          subst he
          refine ⟨by norm_num, by norm_num, ?_⟩
          intro h1 _
          simp at h1)
